import Mathlib

/-!
# Verification of the student-progression simulator core

Shallow embedding of the per-agent semester state machine of
`src/agents/student_agent.py` (class `StudentAgent`, the live version at the
bottom of the file) and the scheduler of `src/model/university_model.py`
(class `UniversityModel`), together with proofs about the claims of the
specification.

Python conventions are translated as follows: `random.random()` draws and the
grade drawn by `random.choices` are threaded explicitly through a `Rand`
record; Python `dict`s become association lists; Python `set`s become
`Finset String`; floats become `ℚ`; `round(x, 2)` is modelled as rounding to
the nearest multiple of `1/100` with ties to even.
-/

namespace DigitalTwin

/-- The five letter grades of `assign_grade`. -/
inductive Grade
  | A | B | C | D | F
deriving DecidableEq

/-- One catalog record: `{credits, category, prerequisites}` as read from
`course_catalog.json` (fields the live state machine consults). -/
structure CourseInfo where
  credits : ℕ
  category : String
  prerequisites : List String
deriving DecidableEq

/-- `course_catalog`: mapping course code → info. -/
abbrev Catalog := List (String × CourseInfo)

/-- `self.course_catalog.get(course_code, {}).get("credits", 3)`:
credits of a course, defaulting to 3 when the code is absent. -/
def creditsOf (cat : Catalog) (c : String) : ℕ :=
  match cat.lookup c with
  | some info => info.credits
  | none => 3

/-- `UniversityModel.__init__`: `[c for c, info in course_catalog.items()
if info.get("category") == "CS Core"]`. -/
def coreCourses (cat : Catalog) : List String :=
  (cat.filter (fun p => p.2.category == "CS Core")).map Prod.fst

/-- Model-level constants shared by all agents. -/
structure ModelParams where
  catalog : Catalog
  required_credits : ℕ
deriving DecidableEq

/-- Mutable state of one `StudentAgent`. -/
structure Agent where
  academic_ability : ℚ
  dropout_chance : ℚ
  study_plan : List (ℕ × List String)
  credits_completed : ℕ
  completed_courses : Finset String
  transcript : List (String × Grade)
  repeat_courses : List String
  gpa : ℚ
  graduated : Bool
  dropped_out : Bool
  semester_num : ℕ
  low_gpa_streak : ℕ
  graduation_semester : Option ℕ
deriving DecidableEq

/-- The random draws one `step` call may consume: the early-attrition
`random.random()`, the late-attrition `random.random()`, and the grade
returned by `random.choices` for the `k`-th attempted course. -/
structure Rand where
  earlyDraw : ℚ
  lateDraw : ℚ
  gradeOf : ℕ → Grade

/-- `StudentAgent.__init__`: build an agent from a profile record.
`semester_num` starts at 1, `low_gpa_streak` at 0 and
`graduation_semester` at `None` unconditionally. -/
def mkAgent (ability dc : ℚ) (plan : List (ℕ × List String)) (credits : ℕ)
    (completed : List String) (tr : List (String × Grade)) (reps : List String)
    (gpa0 : ℚ) (grad drop : Bool) : Agent :=
  { academic_ability := ability
    dropout_chance := dc
    study_plan := plan
    credits_completed := credits
    completed_courses := completed.toFinset
    transcript := tr
    repeat_courses := reps
    gpa := gpa0
    graduated := grad
    dropped_out := drop
    semester_num := 1
    low_gpa_streak := 0
    graduation_semester := none }

/-- `self.study_plan.get(str(self.semester_num), [])`. -/
def planEntry (plan : List (ℕ × List String)) (k : ℕ) : List String :=
  (plan.lookup k).getD []

/-- Write-back of the aliasing mutation: when the key is present,
`semester_courses` IS the dict's own list, so appends done to it are visible
in `study_plan`; when absent, `.get` returned a fresh `[]` and the plan is
untouched. -/
def writePlan (plan : List (ℕ × List String)) (k : ℕ) (v : List String) :
    List (ℕ × List String) :=
  match plan.lookup k with
  | some _ => plan.map (fun p => if p.1 = k then (k, v) else p)
  | none => plan

/-- The repeat-insertion loop:
`for repeat in list(self.repeat_courses): if repeat not in semester_courses
and repeat not in self.completed_courses: semester_courses.append(repeat)`. -/
def addRepeats (completed : Finset String) (reps base : List String) :
    List String :=
  reps.foldl
    (fun acc r => if r ∉ acc ∧ r ∉ completed then acc ++ [r] else acc) base

/-- The full enrollment list constructed at the top of the course section of
`StudentAgent.step`. -/
def selectCourses (a : Agent) : List String :=
  addRepeats a.completed_courses a.repeat_courses
    (planEntry a.study_plan a.semester_num)

/-- `self.transcript[course_code] = grade` on an association list. -/
def updateAssoc (tr : List (String × Grade)) (c : String) (g : Grade) :
    List (String × Grade) :=
  if tr.any (fun p => p.1 == c) then
    tr.map (fun p => if p.1 = c then (c, g) else p)
  else tr ++ [(c, g)]

/-- State threaded through the per-course loop of `StudentAgent.step`:
transcript, completed set, repeat list, credit total and the number of grade
draws consumed so far. -/
structure LoopSt where
  transcript : List (String × Grade)
  completed : Finset String
  repeats : List String
  credits : ℕ
  k : ℕ
deriving DecidableEq

/-- One iteration of `for course_code in semester_courses`. -/
def attemptCourse (cat : Catalog) (gradeOf : ℕ → Grade) (st : LoopSt)
    (c : String) : LoopSt :=
  if c ∈ st.completed then st
  else
    let g := gradeOf st.k
    let tr := updateAssoc st.transcript c g
    if g = Grade.F then
      { st with
        transcript := tr
        k := st.k + 1
        repeats := if c ∈ st.repeats then st.repeats else st.repeats ++ [c] }
    else
      { st with
        transcript := tr
        k := st.k + 1
        completed := insert c st.completed
        credits := st.credits + creditsOf cat c
        repeats := st.repeats.erase c }

/-- The whole per-course loop. -/
def attemptAll (cat : Catalog) (gradeOf : ℕ → Grade) (courses : List String)
    (st : LoopSt) : LoopSt :=
  courses.foldl (attemptCourse cat gradeOf) st

/-- Grade-point mapping of `update_gpa`. -/
def gradePoints : Grade → ℚ
  | .A => 4
  | .B => 3
  | .C => 2
  | .D => 1
  | .F => 0

/-- Round to the nearest integer, ties to even (Python's `round`). -/
def roundHalfEven (q : ℚ) : ℤ :=
  if q - ⌊q⌋ < 1/2 then ⌊q⌋
  else if (1 : ℚ)/2 < q - ⌊q⌋ then ⌊q⌋ + 1
  else if ⌊q⌋ % 2 = 0 then ⌊q⌋ else ⌊q⌋ + 1

/-- `round(x, 2)`. -/
def round2 (q : ℚ) : ℚ := (roundHalfEven (q * 100) : ℚ) / 100

/-- `StudentAgent.update_gpa`: 0.0 on an empty transcript, otherwise the mean
grade-point value over all transcript entries, rounded to 2 decimals. -/
def computeGpa (tr : List (String × Grade)) : ℚ :=
  if tr.isEmpty then 0
  else round2 ((tr.map (fun p => gradePoints p.2)).sum / tr.length)

/-- The academic-probation streak update: the `if/else` around
`low_gpa_streak` runs before any of the remaining dropout rules. -/
def streakUpdate (a : Agent) : Agent :=
  if 3 < a.semester_num ∧ a.gpa < 2 then
    { a with low_gpa_streak := a.low_gpa_streak + 1 }
  else
    { a with low_gpa_streak := 0 }

/-- Loop state at entry of the per-course loop. -/
def initSt (a : Agent) : LoopSt :=
  { transcript := a.transcript
    completed := a.completed_courses
    repeats := a.repeat_courses
    credits := a.credits_completed
    k := 0 }

/-- Enrollment construction, the per-course loop, the plan write-back and the
GPA recompute of `StudentAgent.step`. -/
def afterAttempts (m : ModelParams) (r : Rand) (a : Agent) : Agent :=
  { a with
    study_plan := writePlan a.study_plan a.semester_num (selectCourses a)
    transcript := (attemptAll m.catalog r.gradeOf (selectCourses a) (initSt a)).transcript
    completed_courses := (attemptAll m.catalog r.gradeOf (selectCourses a) (initSt a)).completed
    repeat_courses := (attemptAll m.catalog r.gradeOf (selectCourses a) (initSt a)).repeats
    credits_completed := (attemptAll m.catalog r.gradeOf (selectCourses a) (initSt a)).credits
    gpa := computeGpa (attemptAll m.catalog r.gradeOf (selectCourses a) (initSt a)).transcript }

/-- The graduation check of `StudentAgent.step`. -/
def gradCheck (m : ModelParams) (a : Agent) : Agent :=
  if m.required_credits ≤ a.credits_completed ∧
      ∀ c ∈ coreCourses m.catalog, c ∈ a.completed_courses then
    { a with
      graduated := true
      dropped_out := false
      graduation_semester :=
        match a.graduation_semester with
        | none => some a.semester_num
        | some s => some s }
  else a

/-- Tail of a `step` call that was not short-circuited by a dropout rule:
enrollment, grading, GPA, graduation check and the semester increment. -/
def enrollAndFinish (m : ModelParams) (r : Rand) (a : Agent) : Agent :=
  let b := gradCheck m (afterAttempts m r a)
  { b with semester_num := b.semester_num + 1 }

/-- `StudentAgent.step`, the live version (lines 184-253 of
`src/agents/student_agent.py`). -/
def step (m : ModelParams) (r : Rand) (a : Agent) : Agent :=
  if a.graduated || a.dropped_out then a
  else if 2 ≤ a.semester_num ∧ a.semester_num ≤ 4 ∧
      a.academic_ability < (65 : ℚ)/100 ∧ r.earlyDraw < (15 : ℚ)/100 then
    { a with dropped_out := true }
  else if 3 < a.semester_num ∧ a.gpa < 2 ∧ 2 ≤ a.low_gpa_streak + 1 then
    { streakUpdate a with dropped_out := true }
  else if a.semester_num = 5 ∧ a.credits_completed < 12 then
    { streakUpdate a with dropped_out := true }
  else if 6 ≤ a.semester_num ∧ r.lateDraw < (2 : ℚ)/100 then
    { streakUpdate a with dropped_out := true }
  else
    enrollAndFinish m r (streakUpdate a)

/-- Whether some rule of the dropout cascade fires on this call (the step
short-circuits before enrollment exactly when this holds). -/
def dropoutRuleFires (r : Rand) (a : Agent) : Prop :=
  (2 ≤ a.semester_num ∧ a.semester_num ≤ 4 ∧
    a.academic_ability < (65 : ℚ)/100 ∧ r.earlyDraw < (15 : ℚ)/100)
  ∨ (3 < a.semester_num ∧ a.gpa < 2 ∧ 2 ≤ a.low_gpa_streak + 1)
  ∨ (a.semester_num = 5 ∧ a.credits_completed < 12)
  ∨ (6 ≤ a.semester_num ∧ r.lateDraw < (2 : ℚ)/100)

instance (r : Rand) (a : Agent) : Decidable (dropoutRuleFires r a) := by
  unfold dropoutRuleFires; infer_instance

/-- `self.schedule.step()`: advance every agent exactly once.  The `i`-th
agent of the list consumes the draws `rs i`.  (RandomActivation shuffles the
order; the per-agent effect and the population counts are order-independent,
so a fixed order is used.) -/
def stepAll (m : ModelParams) (rs : ℕ → Rand) : List Agent → List Agent
  | [] => []
  | a :: pop => step m (rs 0) a :: stepAll m (fun i => rs (i + 1)) pop

/-- `UniversityModel.count_graduated`. -/
def countGraduated (pop : List Agent) : ℕ :=
  (pop.filter (fun a => a.graduated)).length

/-- `UniversityModel.count_dropped_out`. -/
def countDroppedOut (pop : List Agent) : ℕ :=
  (pop.filter (fun a => a.dropped_out)).length

/-- `UniversityModel.count_enrolled`. -/
def countEnrolled (pop : List Agent) : ℕ :=
  (pop.filter (fun a => !a.graduated && !a.dropped_out)).length

/-- `UniversityModel` mutable state. -/
structure UModel where
  params : ModelParams
  semester_count : ℕ
  running : Bool
  agents : List Agent

/-- `UniversityModel.step`. -/
def UModel.step (u : UModel) (rs : ℕ → Rand) : UModel :=
  let agents1 := stepAll u.params rs u.agents
  { u with
    semester_count := u.semester_count + 1
    agents := agents1
    running := if countEnrolled agents1 = 0 then false else u.running }

/-- `StudentAgent.assign_grade` weights, in grade order A, B, C, D, F. -/
def gradeWeights (ability : ℚ) : List ℚ :=
  [ability * 4, ability * (5/2), (1 - ability) * 2, (1 - ability) * (3/2),
    (1 - ability) * 4]

/-! ## Spec-modelled term rotation

The Model's current term and a course's historically-typical term are part of
the later agent/model revision that `src/simulation_runner.py` drives (it
reads `bscs_model.current_term`); that revision is not among the given agent
and model sources, so these two notions are modelled from the spec. -/

/-- Modelled from the spec: a term is one of Fall, Spring, Summer, "cycling
every 3 semesters from admission" (missing from the given
`UniversityModel`, which has no term attribute; `simulation_runner.py`
reads `bscs_model.current_term`). -/
inductive Term
  | Fall | Spring | Summer
deriving DecidableEq

/-- Modelled from the spec: the term of 1-based semester `n` under the
Fall→Spring→Summer rotation (semester 1 is Fall). -/
def termOfSemester (n : ℕ) : Term :=
  match n % 3 with
  | 1 => Term.Fall
  | 2 => Term.Spring
  | _ => Term.Summer

/-- Modelled from the spec: a course's historically-typical term, "the first
term in which it appeared anywhere in the plan". -/
def typicalTerm (plan : List (ℕ × List String)) (c : String) : Option Term :=
  match ((plan.filter (fun p => p.2.contains c)).map Prod.fst).min? with
  | some k => some (termOfSemester k)
  | none => none

/-- The invariant of claim C8 on the loop state: no course is both completed
and to-repeat, and the repeat list has no duplicates. -/
def RepOk (st : LoopSt) : Prop :=
  (∀ c ∈ st.repeats, c ∉ st.completed) ∧ st.repeats.Nodup

/-! ## Concrete fixtures for the evaluation theorems -/

/-- Concrete catalog: "MAC2311" (no prerequisites), "CAL2" (prerequisite
"MAC2311"), "CORE1" (category "CS Core"). -/
def testCatalog : Catalog :=
  [("MAC2311", ⟨3, "Math", []⟩), ("CAL2", ⟨3, "Math", ["MAC2311"]⟩),
    ("CORE1", ⟨3, "CS Core", []⟩)]

def testModel : ModelParams := ⟨testCatalog, 120⟩

/-- Draws under which no probabilistic dropout rule fires and every attempted
course receives grade C. -/
def randC : Rand := ⟨1, 1, fun _ => Grade.C⟩

/-- A freshly constructed active agent planning "MAC2311" in semester 1. -/
def agentAct : Agent :=
  mkAgent (9/10) (1/10) [(1, ["MAC2311"])] 0 [] [] [] 0 false false

/-- Active agent whose semester-1 plan holds "CAL2", whose prerequisite
"MAC2311" is not completed. -/
def agentC1 : Agent :=
  mkAgent (9/10) (1/10) [(1, ["CAL2"])] 0 [] [] [] 0 false false

/-- Active agent at semester 1 (a Fall term under the spec rotation) with the
repeat course "CAL2", which first appears in the plan at semester 2 (Spring). -/
def agentC2 : Agent :=
  mkAgent (9/10) (1/10) [(1, []), (2, ["CAL2"])] 0 [] [] ["CAL2"] 3
    false false

/-- Active agent whose plan entry for semester 1 is present and empty, with a
pending repeat course. -/
def agentC3 : Agent :=
  mkAgent (9/10) (1/10) [(1, [])] 0 [] [] ["CAL2"] 0 false false

/-- Active agent with 121 credits but the CS-Core course "CORE1" missing from
`completed_courses`. -/
def agentC5 : Agent :=
  mkAgent (9/10) (1/10) [] 121 ["MAC2311"] [] [] 3 false false

/-- Active agent at semester 5 with 11 credits: the stagnation rule fires
deterministically. -/
def agentC10 : Agent :=
  { mkAgent (9/10) (1/10) [(5, [])] 11 [] [] [] 3 false false with
    semester_num := 5 }

/-- A graduated (terminal) agent. -/
def agentTerm : Agent :=
  mkAgent (9/10) (1/10) [] 0 [] [] [] 0 true false

/-- A two-agent model: one active, one graduated. -/
def uTest : UModel :=
  ⟨testModel, 0, true,
    [agentAct, mkAgent (9/10) (1/10) [] 0 [] [] [] 0 true false]⟩

/-! ## Projection helper lemmas -/

theorem streakUpdate_graduated (a : Agent) :
    (streakUpdate a).graduated = a.graduated := by
  unfold streakUpdate; split <;> rfl

theorem streakUpdate_dropped_out (a : Agent) :
    (streakUpdate a).dropped_out = a.dropped_out := by
  unfold streakUpdate; split <;> rfl

theorem streakUpdate_semester_num (a : Agent) :
    (streakUpdate a).semester_num = a.semester_num := by
  unfold streakUpdate; split <;> rfl

theorem streakUpdate_repeat_courses (a : Agent) :
    (streakUpdate a).repeat_courses = a.repeat_courses := by
  unfold streakUpdate; split <;> rfl

theorem streakUpdate_completed_courses (a : Agent) :
    (streakUpdate a).completed_courses = a.completed_courses := by
  unfold streakUpdate; split <;> rfl

theorem streakUpdate_study_plan (a : Agent) :
    (streakUpdate a).study_plan = a.study_plan := by
  unfold streakUpdate; split <;> rfl

theorem streakUpdate_graduation_semester (a : Agent) :
    (streakUpdate a).graduation_semester = a.graduation_semester := by
  unfold streakUpdate; split <;> rfl

theorem streakUpdate_gpa (a : Agent) :
    (streakUpdate a).gpa = a.gpa := by
  unfold streakUpdate; split <;> rfl

theorem streakUpdate_transcript (a : Agent) :
    (streakUpdate a).transcript = a.transcript := by
  unfold streakUpdate; split <;> rfl

theorem gradCheck_credits (m : ModelParams) (a : Agent) :
    (gradCheck m a).credits_completed = a.credits_completed := by
  unfold gradCheck; split <;> rfl

theorem gradCheck_completed (m : ModelParams) (a : Agent) :
    (gradCheck m a).completed_courses = a.completed_courses := by
  unfold gradCheck; split <;> rfl

theorem gradCheck_transcript (m : ModelParams) (a : Agent) :
    (gradCheck m a).transcript = a.transcript := by
  unfold gradCheck; split <;> rfl

theorem gradCheck_gpa (m : ModelParams) (a : Agent) :
    (gradCheck m a).gpa = a.gpa := by
  unfold gradCheck; split <;> rfl

theorem gradCheck_repeats (m : ModelParams) (a : Agent) :
    (gradCheck m a).repeat_courses = a.repeat_courses := by
  unfold gradCheck; split <;> rfl

theorem gradCheck_semester_num (m : ModelParams) (a : Agent) :
    (gradCheck m a).semester_num = a.semester_num := by
  unfold gradCheck; split <;> rfl

/-- Projections of `afterAttempts` (definitional). -/
theorem afterAttempts_transcript (m : ModelParams) (r : Rand) (a : Agent) :
    (afterAttempts m r a).transcript =
      (attemptAll m.catalog r.gradeOf (selectCourses a) (initSt a)).transcript := rfl

theorem afterAttempts_completed (m : ModelParams) (r : Rand) (a : Agent) :
    (afterAttempts m r a).completed_courses =
      (attemptAll m.catalog r.gradeOf (selectCourses a) (initSt a)).completed := rfl

theorem afterAttempts_repeats (m : ModelParams) (r : Rand) (a : Agent) :
    (afterAttempts m r a).repeat_courses =
      (attemptAll m.catalog r.gradeOf (selectCourses a) (initSt a)).repeats := rfl

theorem afterAttempts_credits (m : ModelParams) (r : Rand) (a : Agent) :
    (afterAttempts m r a).credits_completed =
      (attemptAll m.catalog r.gradeOf (selectCourses a) (initSt a)).credits := rfl

theorem afterAttempts_gpa (m : ModelParams) (r : Rand) (a : Agent) :
    (afterAttempts m r a).gpa = computeGpa ((afterAttempts m r a).transcript) := rfl

theorem afterAttempts_graduated (m : ModelParams) (r : Rand) (a : Agent) :
    (afterAttempts m r a).graduated = a.graduated := rfl

theorem afterAttempts_dropped_out (m : ModelParams) (r : Rand) (a : Agent) :
    (afterAttempts m r a).dropped_out = a.dropped_out := rfl

theorem afterAttempts_semester_num (m : ModelParams) (r : Rand) (a : Agent) :
    (afterAttempts m r a).semester_num = a.semester_num := rfl

theorem afterAttempts_graduation_semester (m : ModelParams) (r : Rand) (a : Agent) :
    (afterAttempts m r a).graduation_semester = a.graduation_semester := rfl

/-- Projections of `enrollAndFinish` in terms of the per-course loop. -/
theorem eaf_transcript (m : ModelParams) (r : Rand) (a : Agent) :
    (enrollAndFinish m r a).transcript =
      (attemptAll m.catalog r.gradeOf (selectCourses a) (initSt a)).transcript := by
  unfold enrollAndFinish
  dsimp only
  rw [gradCheck_transcript, afterAttempts_transcript]

theorem eaf_completed (m : ModelParams) (r : Rand) (a : Agent) :
    (enrollAndFinish m r a).completed_courses =
      (attemptAll m.catalog r.gradeOf (selectCourses a) (initSt a)).completed := by
  unfold enrollAndFinish
  dsimp only
  rw [gradCheck_completed, afterAttempts_completed]

theorem eaf_repeats (m : ModelParams) (r : Rand) (a : Agent) :
    (enrollAndFinish m r a).repeat_courses =
      (attemptAll m.catalog r.gradeOf (selectCourses a) (initSt a)).repeats := by
  unfold enrollAndFinish
  dsimp only
  rw [gradCheck_repeats, afterAttempts_repeats]

theorem eaf_credits (m : ModelParams) (r : Rand) (a : Agent) :
    (enrollAndFinish m r a).credits_completed =
      (attemptAll m.catalog r.gradeOf (selectCourses a) (initSt a)).credits := by
  unfold enrollAndFinish
  dsimp only
  rw [gradCheck_credits, afterAttempts_credits]

theorem eaf_gpa_eq (m : ModelParams) (r : Rand) (a : Agent) :
    (enrollAndFinish m r a).gpa =
      computeGpa (enrollAndFinish m r a).transcript := by
  unfold enrollAndFinish
  dsimp only
  rw [gradCheck_gpa, gradCheck_transcript, afterAttempts_gpa]

theorem eaf_semester_num (m : ModelParams) (r : Rand) (a : Agent) :
    (enrollAndFinish m r a).semester_num = a.semester_num + 1 := by
  unfold enrollAndFinish
  dsimp only
  rw [gradCheck_semester_num, afterAttempts_semester_num]

theorem eaf_not_both (m : ModelParams) (r : Rand) (a : Agent)
    (h : a.graduated = false) :
    ¬((enrollAndFinish m r a).graduated = true ∧
      (enrollAndFinish m r a).dropped_out = true) := by
  unfold enrollAndFinish gradCheck
  split
  next hcond =>
    dsimp only
    intro hc
    cases hc.2
  next hcond =>
    dsimp only
    intro hc
    have hgrad := hc.1
    rw [afterAttempts_graduated, h] at hgrad
    cases hgrad

/-! ## Rounding and GPA bounds -/

theorem roundHalfEven_nonneg (q : ℚ) (h : 0 ≤ q) : 0 ≤ roundHalfEven q := by
  have h0 : (0 : ℤ) ≤ ⌊q⌋ := Int.floor_nonneg.mpr h
  unfold roundHalfEven
  split_ifs <;> omega

theorem roundHalfEven_le_of_le (q : ℚ) (n : ℤ) (h : q ≤ (n : ℚ)) :
    roundHalfEven q ≤ n := by
  have h1 : ⌊q⌋ ≤ n := by
    have := Int.floor_le_floor h
    simpa using this
  have hup : 1/2 ≤ q - ⌊q⌋ → ⌊q⌋ + 1 ≤ n := by
    intro hf
    rcases lt_or_eq_of_le h1 with hlt | heq
    · omega
    · exfalso
      have hfl : (⌊q⌋ : ℚ) ≤ q := Int.floor_le q
      rw [heq] at hf
      have : (n : ℚ) ≤ q - (1/2 : ℚ) + 1/2 := by linarith
      have hqn : (n : ℚ) ≤ q := by linarith
      have : q - (n : ℚ) ≥ 1/2 := by linarith [hf]
      have hq : q ≤ (n : ℚ) := h
      linarith
  unfold roundHalfEven
  split_ifs with hf1 hf2 hev
  · exact h1
  · exact hup (le_of_lt hf2)
  · exact h1
  · exact hup (le_of_not_lt hf1)

theorem round2_nonneg (q : ℚ) (h : 0 ≤ q) : 0 ≤ round2 q := by
  unfold round2
  have h1 : (0 : ℤ) ≤ roundHalfEven (q * 100) :=
    roundHalfEven_nonneg _ (by positivity)
  have h2 : (0 : ℚ) ≤ (roundHalfEven (q * 100) : ℚ) := by exact_mod_cast h1
  positivity

theorem round2_le_four (q : ℚ) (h : q ≤ 4) : round2 q ≤ 4 := by
  unfold round2
  have h1 : roundHalfEven (q * 100) ≤ (400 : ℤ) := by
    apply roundHalfEven_le_of_le
    push_cast
    linarith
  have h2 : (roundHalfEven (q * 100) : ℚ) ≤ 400 := by exact_mod_cast h1
  rw [div_le_iff₀ (by norm_num : (0 : ℚ) < 100)]
  linarith

theorem gradePoints_nonneg (g : Grade) : 0 ≤ gradePoints g := by
  cases g <;> norm_num [gradePoints]

theorem gradePoints_le_four (g : Grade) : gradePoints g ≤ 4 := by
  cases g <;> norm_num [gradePoints]

theorem computeGpa_nil : computeGpa [] = 0 := rfl

theorem computeGpa_nonneg (tr : List (String × Grade)) : 0 ≤ computeGpa tr := by
  unfold computeGpa
  split
  · exact le_refl 0
  · apply round2_nonneg
    apply div_nonneg
    · apply List.sum_nonneg
      intro x hx
      obtain ⟨p, -, rfl⟩ := List.mem_map.mp hx
      exact gradePoints_nonneg _
    · positivity

theorem computeGpa_le_four (tr : List (String × Grade)) : computeGpa tr ≤ 4 := by
  unfold computeGpa
  split
  next => norm_num
  next hne =>
    apply round2_le_four
    have hlen : 0 < tr.length := by
      cases tr with
      | nil => simp at hne
      | cons p t => simp
    have hlenq : (0 : ℚ) < (tr.length : ℚ) := by exact_mod_cast hlen
    have h1 : ((tr.map fun p => gradePoints p.2)).sum ≤
        ((tr.map fun p => gradePoints p.2)).length • (4 : ℚ) :=
      List.sum_le_card_nsmul _ 4 (by
        intro x hx
        obtain ⟨p, -, rfl⟩ := List.mem_map.mp hx
        exact gradePoints_le_four _)
    rw [List.length_map, nsmul_eq_mul] at h1
    rw [div_le_iff₀ hlenq]
    linarith

/-! ## Step case analysis -/

theorem step_terminal (m : ModelParams) (r : Rand) (a : Agent)
    (h : a.graduated = true ∨ a.dropped_out = true) : step m r a = a := by
  unfold step
  rw [if_pos]
  rcases h with h | h <;> simp [h]

theorem step_active_eq (m : ModelParams) (r : Rand) (a : Agent)
    (hg : a.graduated = false) (hd : a.dropped_out = false)
    (hnf : ¬dropoutRuleFires r a) :
    step m r a = enrollAndFinish m r (streakUpdate a) := by
  unfold dropoutRuleFires at hnf
  rw [not_or, not_or, not_or] at hnf
  obtain ⟨h1, h2, h3, h4⟩ := hnf
  unfold step
  rw [if_neg (by simp [hg, hd]), if_neg h1, if_neg h2, if_neg h3, if_neg h4]

theorem step_drop_fields (m : ModelParams) (r : Rand) (a : Agent)
    (hg : a.graduated = false) (hd : a.dropped_out = false)
    (hf : dropoutRuleFires r a) :
    (step m r a).dropped_out = true ∧ (step m r a).graduated = false ∧
    (step m r a).semester_num = a.semester_num ∧
    (step m r a).repeat_courses = a.repeat_courses ∧
    (step m r a).completed_courses = a.completed_courses ∧
    (step m r a).study_plan = a.study_plan := by
  unfold step
  rw [if_neg (by simp [hg, hd])]
  unfold dropoutRuleFires at hf
  split_ifs with h1 h2 h3 h4
  · exact ⟨rfl, hg, rfl, rfl, rfl, rfl⟩
  · exact ⟨rfl, by rw [streakUpdate_graduated]; exact hg,
      streakUpdate_semester_num a, streakUpdate_repeat_courses a,
      streakUpdate_completed_courses a, streakUpdate_study_plan a⟩
  · exact ⟨rfl, by rw [streakUpdate_graduated]; exact hg,
      streakUpdate_semester_num a, streakUpdate_repeat_courses a,
      streakUpdate_completed_courses a, streakUpdate_study_plan a⟩
  · exact ⟨rfl, by rw [streakUpdate_graduated]; exact hg,
      streakUpdate_semester_num a, streakUpdate_repeat_courses a,
      streakUpdate_completed_courses a, streakUpdate_study_plan a⟩
  · exact absurd hf (by tauto)

theorem step_drop_gpa_transcript (m : ModelParams) (r : Rand) (a : Agent)
    (hg : a.graduated = false) (hd : a.dropped_out = false)
    (hf : dropoutRuleFires r a) :
    (step m r a).gpa = a.gpa ∧ (step m r a).transcript = a.transcript := by
  unfold step
  rw [if_neg (by simp [hg, hd])]
  unfold dropoutRuleFires at hf
  split_ifs with h1 h2 h3 h4
  · exact ⟨rfl, rfl⟩
  · exact ⟨streakUpdate_gpa a, streakUpdate_transcript a⟩
  · exact ⟨streakUpdate_gpa a, streakUpdate_transcript a⟩
  · exact ⟨streakUpdate_gpa a, streakUpdate_transcript a⟩
  · exact absurd hf (by tauto)

/-! ## Enrollment-list lemmas -/

theorem mem_addRepeats_of_mem_base (completed : Finset String) :
    ∀ (reps base : List String) (c : String), c ∈ base →
      c ∈ addRepeats completed reps base := by
  intro reps
  induction reps with
  | nil => intro base c hc; exact hc
  | cons r t ih =>
    intro base c hc
    unfold addRepeats
    rw [List.foldl_cons]
    show c ∈ addRepeats completed t _
    split_ifs with hcond
    · exact ih _ c (List.mem_append_left _ hc)
    · exact ih _ c hc

theorem mem_addRepeats (completed : Finset String) :
    ∀ (reps base : List String) (c : String), c ∈ reps → c ∉ completed →
      c ∈ addRepeats completed reps base := by
  intro reps
  induction reps with
  | nil => intro base c hc; simp at hc
  | cons r t ih =>
    intro base c hc hnc
    unfold addRepeats
    rw [List.foldl_cons]
    show c ∈ addRepeats completed t _
    rcases List.mem_cons.mp hc with rfl | hct
    · split_ifs with hcond
      · exact mem_addRepeats_of_mem_base completed t _ c
          (List.mem_append_right _ (List.mem_singleton.mpr rfl))
      · rw [not_and_or, not_not, not_not] at hcond
        rcases hcond with hbase | habs
        · exact mem_addRepeats_of_mem_base completed t _ c hbase
        · exact absurd habs hnc
    · split_ifs with hcond
      · exact ih _ c hct hnc
      · exact ih _ c hct hnc

/-! ## Repeat/completed disjointness through the course loop -/

theorem attemptCourse_repOk (cat : Catalog) (gradeOf : ℕ → Grade)
    (st : LoopSt) (c : String) (h : RepOk st) :
    RepOk (attemptCourse cat gradeOf st c) := by
  obtain ⟨hdisj, hnd⟩ := h
  unfold attemptCourse
  by_cases hmem : c ∈ st.completed
  · rw [if_pos hmem]
    exact ⟨hdisj, hnd⟩
  · rw [if_neg hmem]
    dsimp only
    by_cases hF : gradeOf st.k = Grade.F
    · rw [if_pos hF]
      by_cases hin : c ∈ st.repeats
      · rw [if_pos hin]
        exact ⟨hdisj, hnd⟩
      · rw [if_neg hin]
        refine ⟨?_, ?_⟩
        · intro x hx
          rcases List.mem_append.mp hx with hx1 | hx1
          · exact hdisj x hx1
          · rw [List.mem_singleton.mp hx1]
            exact hmem
        · rw [List.nodup_append]
          refine ⟨hnd, List.nodup_singleton c, ?_⟩
          intro x hx hx1
          rw [List.mem_singleton.mp hx1] at hx
          exact hin hx
    · rw [if_neg hF]
      refine ⟨?_, ?_⟩
      · intro x hx
        have hx1 : x ∈ st.repeats := List.mem_of_mem_erase hx
        have hxc : x ≠ c := by
          intro hrfl
          rw [hrfl] at hx
          exact (List.Nodup.not_mem_erase hnd) hx
        rw [Finset.mem_insert, not_or]
        exact ⟨hxc, hdisj x hx1⟩
      · exact List.Nodup.erase c hnd

theorem attemptAll_repOk (cat : Catalog) (gradeOf : ℕ → Grade) :
    ∀ (courses : List String) (st : LoopSt), RepOk st →
      RepOk (attemptAll cat gradeOf courses st) := by
  intro courses
  induction courses with
  | nil => intro st h; exact h
  | cons c t ih =>
    intro st h
    unfold attemptAll
    rw [List.foldl_cons]
    exact ih _ (attemptCourse_repOk cat gradeOf st c h)

/-! ## Population lemmas -/

theorem stepAll_length (m : ModelParams) :
    ∀ (rs : ℕ → Rand) (pop : List Agent),
      (stepAll m rs pop).length = pop.length := by
  intro rs pop
  induction pop generalizing rs with
  | nil => rfl
  | cons a t ih => simp [stepAll, ih]

theorem step_not_both (m : ModelParams) (r : Rand) (a : Agent)
    (h : ¬(a.graduated = true ∧ a.dropped_out = true)) :
    ¬((step m r a).graduated = true ∧ (step m r a).dropped_out = true) := by
  by_cases hterm : a.graduated = true ∨ a.dropped_out = true
  · rw [step_terminal m r a hterm]; exact h
  · rw [not_or, Bool.not_eq_true, Bool.not_eq_true] at hterm
    obtain ⟨hg, hd⟩ := hterm
    by_cases hf : dropoutRuleFires r a
    · obtain ⟨-, hgrad, -⟩ := step_drop_fields m r a hg hd hf
      rintro ⟨hG, -⟩
      rw [hgrad] at hG
      cases hG
    · rw [step_active_eq m r a hg hd hf]
      exact eaf_not_both m r _ (by rw [streakUpdate_graduated]; exact hg)

theorem stepAll_not_both (m : ModelParams) :
    ∀ (rs : ℕ → Rand) (pop : List Agent),
      (∀ a ∈ pop, ¬(a.graduated = true ∧ a.dropped_out = true)) →
      ∀ a ∈ stepAll m rs pop, ¬(a.graduated = true ∧ a.dropped_out = true) := by
  intro rs pop
  induction pop generalizing rs with
  | nil => intro _ a ha; simp [stepAll] at ha
  | cons b t ih =>
    intro h a ha
    rw [show stepAll m rs (b :: t) =
      step m (rs 0) b :: stepAll m (fun i => rs (i + 1)) t from rfl] at ha
    rcases List.mem_cons.mp ha with rfl | hat
    · exact step_not_both m (rs 0) b (h b (List.mem_cons_self b t))
    · exact ih (fun i => rs (i + 1)) (fun x hx => h x (List.mem_cons_of_mem b hx)) a hat

theorem counts_sum (pop : List Agent)
    (h : ∀ a ∈ pop, ¬(a.graduated = true ∧ a.dropped_out = true)) :
    countGraduated pop + countDroppedOut pop + countEnrolled pop = pop.length := by
  induction pop with
  | nil => rfl
  | cons a t ih =>
    have ha := h a (List.mem_cons_self a t)
    have ht := ih (fun x hx => h x (List.mem_cons_of_mem a hx))
    unfold countGraduated countDroppedOut countEnrolled at ht ⊢
    cases hg : a.graduated with
    | true =>
      have hd : a.dropped_out = false := by
        cases hdd : a.dropped_out with
        | true => exact absurd ⟨hg, hdd⟩ ha
        | false => rfl
      simp [List.filter_cons, hg, hd]
      omega
    | false =>
      cases hd : a.dropped_out with
      | true =>
        simp [List.filter_cons, hg, hd]
        omega
      | false =>
        simp [List.filter_cons, hg, hd]
        omega

/-! ## Graduation-check lemmas -/

theorem eaf_graduated_iff (m : ModelParams) (r : Rand) (a : Agent)
    (h : a.graduated = false) :
    ((enrollAndFinish m r a).graduated = true ↔
      (m.required_credits ≤ (enrollAndFinish m r a).credits_completed ∧
       ∀ c ∈ coreCourses m.catalog,
         c ∈ (enrollAndFinish m r a).completed_courses)) := by
  unfold enrollAndFinish
  rw [gradCheck_credits, gradCheck_completed]
  unfold gradCheck
  split
  next hc =>
    dsimp only
    exact iff_of_true rfl hc
  next hc =>
    dsimp only
    rw [afterAttempts_graduated, h]
    exact iff_of_false (by simp) hc

theorem eaf_graduation_semester (m : ModelParams) (r : Rand) (a : Agent)
    (h : a.graduated = false) :
    (enrollAndFinish m r a).graduation_semester =
      if (enrollAndFinish m r a).graduated = true then
        (if a.graduation_semester = none then some a.semester_num
         else a.graduation_semester)
      else a.graduation_semester := by
  unfold enrollAndFinish
  unfold gradCheck
  split
  next hc =>
    dsimp only
    rw [if_pos rfl, afterAttempts_semester_num]
    have hgs : (afterAttempts m r a).graduation_semester =
        a.graduation_semester := afterAttempts_graduation_semester m r a
    rw [hgs]
    cases a.graduation_semester with
    | none => simp
    | some s => simp
  next hc =>
    dsimp only
    rw [afterAttempts_graduated, h, if_neg (by simp)]
    exact afterAttempts_graduation_semester m r a

theorem computeGpa_ne_nil (tr : List (String × Grade)) (h : tr ≠ []) :
    computeGpa tr =
      round2 ((tr.map (fun p => gradePoints p.2)).sum / tr.length) := by
  unfold computeGpa
  rw [if_neg]
  cases tr with
  | nil => exact absurd rfl h
  | cons p t => simp

/-! ## The claims -/

/-- C1 (code evaluation at the failing input): the course "CAL2" has the
prerequisite "MAC2311", which is not in the agent's `completed_courses`, yet
one step of the live `StudentAgent.step` attempts it and records a grade for
it in the transcript of that very semester; the agent state has no
blocked-course log at all, so no blocked event is appended.  This contradicts
the claim that such a course is excluded from enrollment and generates
exactly one blocked-course event. -/
theorem C1_prereq_not_gated :
    (testCatalog.lookup "CAL2").map CourseInfo.prerequisites =
      some ["MAC2311"] ∧
    agentC1.completed_courses = ∅ ∧
    agentC1.graduated = false ∧ agentC1.dropped_out = false ∧
    (step testModel randC agentC1).transcript.lookup "CAL2" =
      some Grade.C := by
  decide

/-- C2 (counterexample): "CAL2" is a pending repeat course, absent from the
plan entry of the current semester and not completed; the Model's current
term (semester 1, Fall under the spec's rotation) differs from the course's
historically-typical term (first plan appearance in semester 2, Spring), yet
the step attempts the course and grades it — so repeats are NOT restricted to
their historically-typical term as the claim states. -/
theorem C2_counterexample :
    "CAL2" ∈ agentC2.repeat_courses ∧
    "CAL2" ∉ planEntry agentC2.study_plan agentC2.semester_num ∧
    "CAL2" ∉ agentC2.completed_courses ∧
    typicalTerm agentC2.study_plan "CAL2" = some Term.Spring ∧
    termOfSemester agentC2.semester_num = Term.Fall ∧
    (step testModel randC agentC2).transcript.lookup "CAL2" =
      some Grade.C := by
  decide

/-- C2 (amended): when the enrollment set for the current semester is
constructed, every course still in `repeat_courses` and not in
`completed_courses` is added back unconditionally — no term condition is
consulted. -/
theorem C2_repeat_added_unconditionally (a : Agent) (c : String)
    (h1 : c ∈ a.repeat_courses) (h2 : c ∉ a.completed_courses) :
    c ∈ selectCourses a := by
  unfold selectCourses
  exact mem_addRepeats a.completed_courses a.repeat_courses
    (planEntry a.study_plan a.semester_num) c h1 h2

theorem C2_repeat_added_unconditionally_witness :
    "CAL2" ∈ agentC2.repeat_courses ∧
    "CAL2" ∉ agentC2.completed_courses ∧
    "CAL2" ∈ selectCourses agentC2 :=
  ⟨by decide, by decide,
    C2_repeat_added_unconditionally agentC2 "CAL2" (by decide) (by decide)⟩

/-- C3 (code evaluation at the failing input): with `study_plan = {1: []}`
and `repeat_courses = ["CAL2"]`, one step rewrites the plan to
`{1: ["CAL2"]}` — `semester_courses` aliases the plan's own list, so the
retake append mutates the plan, contradicting the claim that every semester
entry of the study plan is identical before and after every step call. -/
theorem C3_plan_mutated :
    agentC3.graduated = false ∧ agentC3.dropped_out = false ∧
    agentC3.study_plan = [(1, [])] ∧
    (step testModel randC agentC3).study_plan = [(1, ["CAL2"])] := by
  decide

/-- C4: after every step — terminal no-op, dropout-short-circuited and full
alike — `gpa` remains the GPA recomputed from the current transcript: 0 when
the transcript is empty, otherwise the unweighted mean of the grade-point
values (A=4, B=3, C=2, D=1, F=0) of all entries currently in the transcript
rounded to 2 decimals, and in all cases `gpa` lies in [0, 4].  Stated as
preservation of the entry invariant `gpa = computeGpa transcript`, which
holds at construction (generated profiles start with gpa 0.0 and an empty
transcript): steps that skip `update_gpa` change neither field, and full
steps recompute `gpa` from the new transcript. -/
theorem C4_gpa_after_step (m : ModelParams) (r : Rand) (a : Agent)
    (hinv : a.gpa = computeGpa a.transcript) :
    (step m r a).gpa = computeGpa (step m r a).transcript ∧
    ((step m r a).transcript = [] → (step m r a).gpa = 0) ∧
    ((step m r a).transcript ≠ [] →
      (step m r a).gpa =
        round2 (((step m r a).transcript.map (fun p => gradePoints p.2)).sum /
          ((step m r a).transcript.length : ℚ))) ∧
    0 ≤ (step m r a).gpa ∧ (step m r a).gpa ≤ 4 := by
  have key : (step m r a).gpa = computeGpa (step m r a).transcript := by
    by_cases hterm : a.graduated = true ∨ a.dropped_out = true
    · rw [step_terminal m r a hterm]
      exact hinv
    · rw [not_or, Bool.not_eq_true, Bool.not_eq_true] at hterm
      obtain ⟨hg, hd⟩ := hterm
      by_cases hf : dropoutRuleFires r a
      · obtain ⟨hgpa, htr⟩ := step_drop_gpa_transcript m r a hg hd hf
        rw [hgpa, htr]
        exact hinv
      · rw [step_active_eq m r a hg hd hf]
        exact eaf_gpa_eq m r _
  refine ⟨key, ?_, ?_, ?_, ?_⟩
  · intro h
    rw [key, h]
    exact computeGpa_nil
  · intro h
    rw [key, computeGpa_ne_nil _ h]
  · rw [key]
    exact computeGpa_nonneg _
  · rw [key]
    exact computeGpa_le_four _

theorem C4_gpa_after_step_witness :
    agentAct.gpa = computeGpa agentAct.transcript ∧
    ((step testModel randC agentAct).transcript = [] →
      (step testModel randC agentAct).gpa = 0) ∧
    0 ≤ (step testModel randC agentAct).gpa ∧
    (step testModel randC agentAct).gpa ≤ 4 := by
  refine ⟨rfl, ?_, ?_, ?_⟩
  · exact (C4_gpa_after_step testModel randC agentAct rfl).2.1
  · exact (C4_gpa_after_step testModel randC agentAct rfl).2.2.2.1
  · exact (C4_gpa_after_step testModel randC agentAct rfl).2.2.2.2

/-- C5: at the graduation check of a step that was not short-circuited by a
dropout rule, the agent ends graduated iff its (post-attempt) credit total
reaches `required_credits` and every catalog course of category "CS Core" is
in its completed set; `graduation_semester` is written only when the
condition holds and no value was recorded before. -/
theorem C5_graduation_rule (m : ModelParams) (r : Rand) (a : Agent)
    (hg : a.graduated = false) (hd : a.dropped_out = false)
    (hnf : ¬dropoutRuleFires r a) :
    ((step m r a).graduated = true ↔
      (m.required_credits ≤ (step m r a).credits_completed ∧
       ∀ c ∈ coreCourses m.catalog, c ∈ (step m r a).completed_courses)) ∧
    (step m r a).graduation_semester =
      (if (step m r a).graduated = true then
        (if a.graduation_semester = none then some a.semester_num
         else a.graduation_semester)
       else a.graduation_semester) := by
  rw [step_active_eq m r a hg hd hnf]
  have hg1 : (streakUpdate a).graduated = false := by
    rw [streakUpdate_graduated]; exact hg
  constructor
  · exact eaf_graduated_iff m r (streakUpdate a) hg1
  · rw [eaf_graduation_semester m r (streakUpdate a) hg1,
      streakUpdate_graduation_semester, streakUpdate_semester_num]

theorem C5_graduation_rule_witness :
    testModel.required_credits = 120 ∧
    agentC5.credits_completed = 121 ∧
    "CORE1" ∈ coreCourses testModel.catalog ∧
    agentC5.graduated = false ∧ agentC5.dropped_out = false ∧
    ¬dropoutRuleFires randC agentC5 ∧
    "CORE1" ∉ (step testModel randC agentC5).completed_courses ∧
    (step testModel randC agentC5).graduated = false := by
  refine ⟨rfl, rfl, by decide, rfl, rfl, by decide, by decide, ?_⟩
  have h := (C5_graduation_rule testModel randC agentC5 rfl rfl (by decide)).1
  have hcond : ¬(testModel.required_credits ≤
      (step testModel randC agentC5).credits_completed ∧
      ∀ c ∈ coreCourses testModel.catalog,
        c ∈ (step testModel randC agentC5).completed_courses) := by decide
  exact Bool.eq_false_iff.mpr (fun hb => hcond (h.mp hb))

/-- C6: one `Model.step()` preserves the invariant that no agent has both
terminal flags set, and under that invariant the three population counters
partition the population: graduated + dropped-out + enrolled = total. -/
theorem C6_flags_and_counts (u : UModel) (rs : ℕ → Rand)
    (h : ∀ a ∈ u.agents, ¬(a.graduated = true ∧ a.dropped_out = true)) :
    (∀ a ∈ (UModel.step u rs).agents,
       ¬(a.graduated = true ∧ a.dropped_out = true)) ∧
    countGraduated (UModel.step u rs).agents +
      countDroppedOut (UModel.step u rs).agents +
      countEnrolled (UModel.step u rs).agents = u.agents.length := by
  have hagents : (UModel.step u rs).agents = stepAll u.params rs u.agents := rfl
  rw [hagents]
  have hinv := stepAll_not_both u.params rs u.agents h
  exact ⟨hinv, (counts_sum _ hinv).trans (stepAll_length u.params rs u.agents)⟩

theorem C6_flags_and_counts_witness :
    (∀ a ∈ uTest.agents, ¬(a.graduated = true ∧ a.dropped_out = true)) ∧
    countGraduated (UModel.step uTest (fun _ => randC)).agents +
      countDroppedOut (UModel.step uTest (fun _ => randC)).agents +
      countEnrolled (UModel.step uTest (fun _ => randC)).agents =
      uTest.agents.length :=
  ⟨by decide, (C6_flags_and_counts uTest (fun _ => randC) (by decide)).2⟩

/-- C7: a step on an agent that is already graduated or dropped out returns
the agent completely unchanged (every field), and therefore any number of
repeated step calls, with arbitrary random draws, leaves it unchanged. -/
theorem C7_terminal_noop (m : ModelParams) (a : Agent)
    (h : a.graduated = true ∨ a.dropped_out = true) (rs : List Rand) :
    rs.foldl (fun b r => step m r b) a = a := by
  induction rs with
  | nil => rfl
  | cons r t ih =>
    rw [List.foldl_cons, step_terminal m r a h]
    exact ih

theorem C7_terminal_noop_witness :
    (agentTerm.graduated = true ∨ agentTerm.dropped_out = true) ∧
    [randC, randC, randC].foldl (fun b r => step testModel r b) agentTerm =
      agentTerm :=
  ⟨Or.inl rfl,
    C7_terminal_noop testModel agentTerm (Or.inl rfl) [randC, randC, randC]⟩

/-- C8: a step preserves the invariant that no course code lies in both
`completed_courses` and `repeat_courses` (together with the repeat list
having no duplicates, which the constructor data satisfies and the loop
maintains): a pass erases the course from the repeat list in the same
iteration that adds it to the completed set, and a failure only adds courses
that are not completed. -/
theorem C8_disjoint_invariant (m : ModelParams) (r : Rand) (a : Agent)
    (hdisj : ∀ c ∈ a.repeat_courses, c ∉ a.completed_courses)
    (hnd : a.repeat_courses.Nodup) :
    (∀ c ∈ (step m r a).repeat_courses,
       c ∉ (step m r a).completed_courses) ∧
    (step m r a).repeat_courses.Nodup := by
  by_cases hterm : a.graduated = true ∨ a.dropped_out = true
  · rw [step_terminal m r a hterm]
    exact ⟨hdisj, hnd⟩
  · rw [not_or, Bool.not_eq_true, Bool.not_eq_true] at hterm
    obtain ⟨hg, hd⟩ := hterm
    by_cases hf : dropoutRuleFires r a
    · obtain ⟨-, -, -, hrep, hcomp, -⟩ := step_drop_fields m r a hg hd hf
      rw [hrep, hcomp]
      exact ⟨hdisj, hnd⟩
    · rw [step_active_eq m r a hg hd hf, eaf_repeats, eaf_completed]
      have h0 : RepOk (initSt (streakUpdate a)) := by
        constructor
        · show ∀ c ∈ (streakUpdate a).repeat_courses,
            c ∉ (streakUpdate a).completed_courses
          rw [streakUpdate_repeat_courses, streakUpdate_completed_courses]
          exact hdisj
        · show (streakUpdate a).repeat_courses.Nodup
          rw [streakUpdate_repeat_courses]
          exact hnd
      exact attemptAll_repOk _ _ _ _ h0

theorem C8_disjoint_invariant_witness :
    (∀ c ∈ agentC2.repeat_courses, c ∉ agentC2.completed_courses) ∧
    agentC2.repeat_courses.Nodup ∧
    (∀ c ∈ (step testModel randC agentC2).repeat_courses,
       c ∉ (step testModel randC agentC2).completed_courses) :=
  ⟨by decide, by decide,
    (C8_disjoint_invariant testModel randC agentC2 (by decide) (by decide)).1⟩

/-- C9 (counterexample): at ability = 1 — a value inside the claimed domain
[0, 1] — the C, D and F weights of `assign_grade` are `(1-1)*2 = 0`,
`(1-1)*1.5 = 0` and `(1-1)*4 = 0`, so not all five weights are strictly
positive as the claim states. -/
theorem C9_counterexample :
    (0 : ℚ) ≤ 1 ∧ (1 : ℚ) ≤ 1 ∧ ¬(∀ w ∈ gradeWeights 1, 0 < w) := by
  refine ⟨by norm_num, le_refl 1, fun hall => ?_⟩
  have h0 : ((1 : ℚ) - 1) * 2 ∈ gradeWeights 1 := by
    unfold gradeWeights
    simp only [List.mem_cons]
    tauto
  have := hall _ h0
  norm_num at this

/-- C9 (amended): for every ability strictly between 0 and 1, all five
weights computed by `assign_grade` are strictly positive. -/
theorem C9_weights_positive (ability : ℚ) (h0 : 0 < ability)
    (h1 : ability < 1) : ∀ w ∈ gradeWeights ability, 0 < w := by
  have h2 : (0 : ℚ) < 1 - ability := by linarith
  intro w hw
  unfold gradeWeights at hw
  simp only [List.mem_cons, List.not_mem_nil, or_false] at hw
  rcases hw with rfl | rfl | rfl | rfl | rfl
  · exact mul_pos h0 (by norm_num)
  · exact mul_pos h0 (by norm_num)
  · exact mul_pos h2 (by norm_num)
  · exact mul_pos h2 (by norm_num)
  · exact mul_pos h2 (by norm_num)

theorem C9_weights_positive_witness :
    (0 : ℚ) < 1/2 ∧ (1/2 : ℚ) < 1 ∧ ∀ w ∈ gradeWeights (1/2), 0 < w :=
  ⟨by norm_num, by norm_num,
    C9_weights_positive (1/2) (by norm_num) (by norm_num)⟩

/-- C10 (counterexample): an active agent at semester 5 with 11 credits hits
the deterministic stagnation rule; the call returns with
`dropped_out = true` and `semester_num` still 5 — so a step call in which a
dropout rule fires does NOT increment `semester_num`, contrary to the
claim's "including calls in which a dropout rule fires". -/
theorem C10_counterexample :
    agentC10.graduated = false ∧ agentC10.dropped_out = false ∧
    agentC10.semester_num = 5 ∧
    (step testModel randC agentC10).dropped_out = true ∧
    (step testModel randC agentC10).semester_num = 5 := by
  decide

/-- C10 (amended): `semester_num` is 1 at construction; a step on an active
agent increments it by exactly one when no dropout rule fires (including
calls in which the agent graduates), and leaves it unchanged when a dropout
rule fires (the call returns early, with `dropped_out = true`). -/
theorem C10_semester_increment (m : ModelParams) (r : Rand) (a : Agent)
    (hg : a.graduated = false) (hd : a.dropped_out = false) :
    (∀ ab dc plan cr comp tr reps g0 gr dr,
        (mkAgent ab dc plan cr comp tr reps g0 gr dr).semester_num = 1) ∧
    (dropoutRuleFires r a →
        (step m r a).semester_num = a.semester_num ∧
        (step m r a).dropped_out = true) ∧
    (¬dropoutRuleFires r a →
        (step m r a).semester_num = a.semester_num + 1) := by
  refine ⟨fun _ _ _ _ _ _ _ _ _ _ => rfl, fun hf => ?_, fun hnf => ?_⟩
  · obtain ⟨hdrop, -, hsem, -⟩ := step_drop_fields m r a hg hd hf
    exact ⟨hsem, hdrop⟩
  · rw [step_active_eq m r a hg hd hnf, eaf_semester_num,
      streakUpdate_semester_num]

theorem C10_semester_increment_witness :
    agentAct.graduated = false ∧ agentAct.dropped_out = false ∧
    ¬dropoutRuleFires randC agentAct ∧
    (step testModel randC agentAct).semester_num =
      agentAct.semester_num + 1 := by
  refine ⟨rfl, rfl, by decide, ?_⟩
  exact (C10_semester_increment testModel randC agentAct rfl rfl).2.2 (by decide)

end DigitalTwin